import Mathlib

/-!
Shallow embedding of the xnodes event framework (src/xnodes/x_core.py and its
data modules) together with theorems about its dispatch, registration and
undo/redo behaviour.

Modelling conventions:
* Python strings are `String`, dicts are association lists (`List (key × value)`),
  Python sets are lists without duplicates, and event-parameter values are drawn
  from an opaque universe modelled as `Nat` (no operation of the engine inspects
  a parameter value).
* The process-wide mutable globals of x_core.py are gathered into one
  `XCoreState` record that every operation threads explicitly.
* A raised `XNodeException` is modelled as `some e : Option XError`, with one
  constructor per distinct raise site / message of the source; `none` means the
  call returned normally.  Functions return the state as mutated up to the
  raise, exactly like the Python globals after an exception propagates.
* Python handlers are callables; the engine only ever (a) invokes them and
  (b) inspects the returned value as an iterable of undo pairs.  They are
  embedded first-order as `HandlerSpec`: either a fixed returned value
  (`result`), or one of the three built-in core handlers that trigger
  undo / redo / clear re-entrantly (the lambdas installed in _EVENT_HANDLERS).
* Thread affinity (`_is_main_thread`) is the state field `on_main_thread`;
  the configured relay (`_MAIN_THREAD_DELEGATOR`) is the flag `has_delegator`,
  and the calls it receives are recorded in the `delegated` trace.
* `executed` is an observation trace: it records each event whose handler was
  actually invoked, in invocation order (the side effect of running a handler).
* Re-entrant dispatch (the counters broadcast, the core undo/redo handlers) is
  not structurally terminating, so the mutually recursive functions take a
  fuel argument; every nested call consumes one unit and exhaustion is the
  artificial error `outOfFuel` (unreachable for adequate fuel).
-/

namespace XNodes

/-- Parameter values carried by events; the engine never inspects them. -/
abbrev Params := List (String × Nat)

/-- x_event_description.XEventParameter: (name, optional type tag, description). -/
structure XEventParameter where
  name : String
  type : Option String := none
  description : String := ""
deriving DecidableEq

/-- x_event_description.XEventDescription: parameter set plus log level. -/
structure XEventDescription where
  parameters : List XEventParameter
  log_level : Int := 20
deriving DecidableEq

/-- x_event.XEvent: one message instance. -/
structure XEvent where
  id : String
  event_description : XEventDescription
  sender_id : String
  receiver_id : String
  parameters : Params
deriving DecidableEq

/-- One element of the iterable a handler may return.  `pair` is a well-formed
2-tuple `(event_id, parameter-dict)`; `notPair` is any element that is not a
2-tuple; `pairNonDict` is a 2-tuple whose second component is not a dict. -/
inductive UndoItem where
  | pair (event_id : String) (parameters : Params)
  | notPair
  | pairNonDict (event_id : String)
deriving DecidableEq

/-- The value returned by a handler, as far as _extract_undo_events looks at it:
either not an iterable at all (None, an int, ...) or an iterable of items. -/
inductive HandlerResult where
  | nonIterable
  | iterable (items : List UndoItem)
deriving DecidableEq

/-- An entry of _EVENT_HANDLERS: a user handler with a fixed return value, or
one of the three core lambdas (undo / redo / clear). -/
inductive HandlerSpec where
  | result (r : HandlerResult)
  | coreUndo
  | coreRedo
  | coreClear
deriving DecidableEq

/-- x_core_configuration.XCoreConfiguration with its default field values. -/
structure XCoreConfiguration where
  log_level : Int := 20
  log_event_parameters : Bool := true
  log_parameter_type_info : Bool := false
  id_maximum_logging_length : Int := 40
  maximum_undo_events : Int := 1000
deriving DecidableEq

/-- One constructor per distinct XNodeException raise site of x_core.py
(the raise sites have pairwise distinct messages), plus the fuel artifact. -/
inductive XError where
  | buildUnknownEvent
  | buildParameterMismatch
  | duplicateNode
  | handlerUnknownEvent
  | missingSenderIdDeclaration
  | handlerParameterMismatch
  | unknownNode
  | keyError
  | invalidConfiguration
  | invalidDelegatorType
  | unknownEvent
  | unknownSender
  | unknownReceiver
  | receiverNotSubscribed
  | broadcastUnknownEvent
  | broadcastUnknownSender
  | notOnMainThread
  | notOnMainThreadDirect
  | handlerNotSubscribed
  | malformedUndoEvent
  | invalidUndoParameterContainer
  | outOfFuel
deriving DecidableEq

/-- The module-level mutable globals of x_core.py in one record.
`executed` and `delegated` are observation traces (handler invocations and
calls received by the relay). -/
structure XCoreState where
  event_descriptions : List (String × XEventDescription)
  node_ids : List String
  event_subscriptions : List (String × List String)
  event_handlers : List ((String × String) × HandlerSpec)
  undo_stack : List (List XEvent)
  redo_stack : List (List XEvent)
  config : XCoreConfiguration
  has_delegator : Bool
  on_main_thread : Bool
  executed : List XEvent
  delegated : List (List XEvent × Bool)
deriving DecidableEq

/-- Subscribers of an event (defaultdict(set): missing key reads as empty). -/
def subscribersOf (st : XCoreState) (event_id : String) : List String :=
  (st.event_subscriptions.lookup event_id).getD []

/-- Handler bound to (event, node), if any. -/
def handlerOf (st : XCoreState) (event_id node_id : String) : Option HandlerSpec :=
  st.event_handlers.lookup (event_id, node_id)

/-- _get_parameter_names: the names of an event description's parameters. -/
def get_parameter_names (ed : XEventDescription) : List String :=
  ed.parameters.map (fun p => p.name)

/-- Equality of two name collections as sets (Python compares set(..) == set(..)). -/
def sameNameSet (a b : List String) : Bool :=
  a.all (fun x => b.contains x) && b.all (fun x => a.contains x)

/-- _build_event: fails on an unknown event id, then on a parameter-name-set
mismatch, else constructs the event. -/
def build_event (st : XCoreState) (event_id sender_id receiver_id : String)
    (parameters : Params) : Except XError XEvent :=
  match st.event_descriptions.lookup event_id with
  | none => .error .buildUnknownEvent
  | some ed =>
    if sameNameSet (get_parameter_names ed) (parameters.map (fun p => p.1)) then
      .ok { id := event_id, event_description := ed, sender_id := sender_id,
            receiver_id := receiver_id, parameters := parameters }
    else
      .error .buildParameterMismatch

/-- _EVENT_SUBSCRIPTIONS[event_id].add(node_id): set insertion into the table. -/
def addSubscriber (subs : List (String × List String)) (event_id node_id : String) :
    List (String × List String) :=
  match subs with
  | [] => [(event_id, [node_id])]
  | (e, ns) :: rest =>
    if e = event_id then
      (e, if ns.contains node_id then ns else ns ++ [node_id]) :: rest
    else
      (e, ns) :: addSubscriber rest event_id node_id

/-- Dict assignment _EVENT_HANDLERS[key] = handler (overwrite or append). -/
def setHandler (hs : List ((String × String) × HandlerSpec)) (key : String × String)
    (h : HandlerSpec) : List ((String × String) × HandlerSpec) :=
  match hs with
  | [] => [(key, h)]
  | (k, v) :: rest =>
    if k = key then (k, h) :: rest else (k, v) :: setHandler rest key h

/-- Dict _EVENT_HANDLERS.pop(key): remove the (first) entry with the key. -/
def removeHandler (hs : List ((String × String) × HandlerSpec)) (key : String × String) :
    List ((String × String) × HandlerSpec) :=
  match hs with
  | [] => []
  | (k, v) :: rest =>
    if k = key then rest else (k, v) :: removeHandler rest key

/-- One handler binding discovered on a node object: the handled event id, the
argument names of the method as reported by getfullargspec (possibly including
"self" and "sender_id"), the APPEND_SENDER_ID flag, and its behaviour.  The
list of bindings passed to `register_node` stands for the reflective
inspect.getmembers scan, in its iteration order. -/
structure HandlerBinding where
  event_id : String
  args : List String
  append_sender_id : Bool
  handler : HandlerSpec
deriving DecidableEq

/-- The two table mutations register_node performs for one accepted binding. -/
def commitBinding (st : XCoreState) (node_id : String) (b : HandlerBinding) : XCoreState :=
  { st with
    event_subscriptions := addSubscriber st.event_subscriptions b.event_id node_id,
    event_handlers := setHandler st.event_handlers (b.event_id, node_id) b.handler }

/-- The binding loop of register_node: each binding is validated and, if valid,
immediately committed before the next binding is looked at; the node id is
added to the id set only after the whole loop. -/
def registerBindings (st : XCoreState) (node_id : String) :
    List HandlerBinding → XCoreState × Option XError
  | [] => ({ st with node_ids := st.node_ids ++ [node_id] }, none)
  | b :: rest =>
    match st.event_descriptions.lookup b.event_id with
    | none => (st, some .handlerUnknownEvent)
    | some ed =>
      let method_event_parameters := (b.args.erase "self").erase "sender_id"
      if b.append_sender_id && !(b.args.contains "sender_id") then
        (st, some .missingSenderIdDeclaration)
      else if !(sameNameSet (get_parameter_names ed) method_event_parameters) then
        (st, some .handlerParameterMismatch)
      else
        registerBindings (commitBinding st node_id b) node_id rest

/-- register_node: duplicate-id check, then the binding loop. -/
def register_node (st : XCoreState) (node_id : String)
    (bindings : List HandlerBinding) : XCoreState × Option XError :=
  if st.node_ids.contains node_id then
    (st, some .duplicateNode)
  else
    registerBindings st node_id bindings

/-- The loop of unregister_node over _EVENT_SUBSCRIPTIONS.items(): for each
event whose subscriber set contains the node, the node is removed from the set
and then the handler entry is popped; a missing handler entry is a KeyError
raised after the subscriber was already removed (dict .pop with no default). -/
def removeSubsAndHandlers (node_id : String) :
    List (String × List String) → List ((String × String) × HandlerSpec) →
    List (String × List String) × List ((String × String) × HandlerSpec) × Option XError
  | [], hs => ([], hs, none)
  | (e, ns) :: rest, hs =>
    if ns.contains node_id then
      if (hs.lookup (e, node_id)).isSome then
        match removeSubsAndHandlers node_id rest (removeHandler hs (e, node_id)) with
        | (subs2, hs2, err) => ((e, ns.erase node_id) :: subs2, hs2, err)
      else
        ((e, ns.erase node_id) :: rest, hs, some .keyError)
    else
      match removeSubsAndHandlers node_id rest hs with
      | (subs2, hs2, err) => ((e, ns) :: subs2, hs2, err)

/-- unregister_node: unknown-id check, the subscription/handler sweep, then
removal of the id itself (only reached when the sweep did not raise). -/
def unregister_node (st : XCoreState) (node_id : String) : XCoreState × Option XError :=
  if !(st.node_ids.contains node_id) then
    (st, some .unknownNode)
  else
    match removeSubsAndHandlers node_id st.event_subscriptions st.event_handlers with
    | (subs2, hs2, none) =>
      ({ st with event_subscriptions := subs2, event_handlers := hs2,
                 node_ids := st.node_ids.erase node_id }, none)
    | (subs2, hs2, some e) =>
      ({ st with event_subscriptions := subs2, event_handlers := hs2 }, some e)

/-- _append_undo_events: push the batch, then evict the oldest batch when a
non-negative maximum is exceeded; a negative maximum never evicts. -/
def append_undo_events (st : XCoreState) (undo_evs : List XEvent) : XCoreState :=
  let st1 := { st with undo_stack := st.undo_stack ++ [undo_evs] }
  if st1.config.maximum_undo_events < 0 then
    st1
  else if (st1.undo_stack.length : Int) > st1.config.maximum_undo_events then
    { st1 with undo_stack := st1.undo_stack.tail }
  else
    st1

/-- _extract_undo_events, inner loop over the iterable's items. -/
def extractItems (st : XCoreState) (receiver_id : String) :
    List UndoItem → Except XError (List XEvent)
  | [] => .ok []
  | .notPair :: _ => .error .malformedUndoEvent
  | .pairNonDict _ :: _ => .error .invalidUndoParameterContainer
  | .pair event_id ps :: rest =>
    match build_event st event_id receiver_id receiver_id ps with
    | .error e => .error e
    | .ok ev =>
      match extractItems st receiver_id rest with
      | .error e => .error e
      | .ok evs => .ok (ev :: evs)

/-- _extract_undo_events: a non-iterable handler return value yields no undo
events and no error; an iterable is drained item by item, each item checked to
be a 2-tuple with a dict second component and built into an event whose sender
and receiver are both the original receiver. -/
def extract_undo_events (st : XCoreState) (res : HandlerResult) (receiver_id : String) :
    Except XError (List XEvent) :=
  match res with
  | .nonIterable => .ok []
  | .iterable items => extractItems st receiver_id items

/-- Build one event per subscriber, in subscriber order (the comprehension
inside broadcast); the first failing build aborts the whole comprehension. -/
def buildAll (st : XCoreState) (event_id sender_id : String) (parameters : Params) :
    List String → Except XError (List XEvent)
  | [] => .ok []
  | receiver :: rest =>
    match build_event st event_id sender_id receiver parameters with
    | .error e => .error e
    | .ok ev =>
      match buildAll st event_id sender_id parameters rest with
      | .error e => .error e
      | .ok evs => .ok (ev :: evs)

mutual

/-- publish_events: thread-affinity gate.  On the designated thread the batch
runs in-process; off it, a configured relay receives the batch — with the flag
hard-coded to `false` exactly as in the source (`delegate_events(events,
is_undo=False)`); with no relay the call fails. -/
def publish_events : Nat → XCoreState → List XEvent → Bool → XCoreState × Option XError
  | 0, st, _, _ => (st, some .outOfFuel)
  | fuel + 1, st, events, is_undo =>
    if st.on_main_thread then
      publish_events_in_main_thread fuel st events is_undo
    else if st.has_delegator then
      ({ st with delegated := st.delegated ++ [(events, false)] }, none)
    else
      (st, some .notOnMainThread)
termination_by structural fuel => fuel

/-- publish_events_in_main_thread: re-checks thread affinity, executes the
batch collecting undo events, then (only when no exception escaped the loop)
pushes the reversed undo events onto the redo stack for an undo replay or via
_append_undo_events otherwise, and publishes the counters when anything
changed. -/
def publish_events_in_main_thread :
    Nat → XCoreState → List XEvent → Bool → XCoreState × Option XError
  | 0, st, _, _ => (st, some .outOfFuel)
  | fuel + 1, st, events, is_undo =>
    if !st.on_main_thread then
      (st, some .notOnMainThreadDirect)
    else
      match execute_batch fuel st events with
      | (st1, _, some e) => (st1, some e)
      | (st1, undo_events, none) =>
        let st2 :=
          if undo_events.isEmpty then st1
          else if is_undo then
            { st1 with redo_stack := st1.redo_stack ++ [undo_events.reverse] }
          else
            append_undo_events st1 undo_events.reverse
        if !undo_events.isEmpty || is_undo then
          publish_undo_redo_counters fuel st2
        else
          (st2, none)
termination_by structural fuel => fuel

/-- The loop over the batch inside publish_events_in_main_thread: execute each
event and extract its undo events; the first exception aborts the rest of the
loop (the accumulated undo list of a failed batch is never used). -/
def execute_batch : Nat → XCoreState → List XEvent →
    XCoreState × List XEvent × Option XError
  | 0, st, _ => (st, [], some .outOfFuel)
  | _ + 1, st, [] => (st, [], none)
  | fuel + 1, st, event :: rest =>
    match execute_event fuel st event with
    | (st1, _, some e) => (st1, [], some e)
    | (st1, res, none) =>
      match extract_undo_events st1 res event.receiver_id with
      | .error e => (st1, [], some e)
      | .ok evs =>
        match execute_batch fuel st1 rest with
        | (st2, undo2, err) => (st2, evs ++ undo2, err)
termination_by structural fuel => fuel

/-- _execute_event: handler lookup (failing if the handler has vanished),
then invocation.  Invocation appends the event to the `executed` trace; a user
handler yields its fixed result, the three core handlers run their re-entrant
operation and return None (non-iterable). -/
def execute_event : Nat → XCoreState → XEvent →
    XCoreState × HandlerResult × Option XError
  | 0, st, _ => (st, .nonIterable, some .outOfFuel)
  | fuel + 1, st, event =>
    match handlerOf st event.id event.receiver_id with
    | none => (st, .nonIterable, some .handlerNotSubscribed)
    | some hspec =>
      let st1 := { st with executed := st.executed ++ [event] }
      match hspec with
      | .result r => (st1, r, none)
      | .coreUndo =>
        match undo_events fuel st1 with
        | (st2, err) => (st2, .nonIterable, err)
      | .coreRedo =>
        match redo_events fuel st1 with
        | (st2, err) => (st2, .nonIterable, err)
      | .coreClear =>
        match clear_undo_redo_stacks fuel st1 with
        | (st2, err) => (st2, .nonIterable, err)
termination_by structural fuel => fuel

/-- _undo_events: no-op on an empty undo stack, else pop the most recent batch
and resubmit it with is_undo = True. -/
def undo_events : Nat → XCoreState → XCoreState × Option XError
  | 0, st => (st, some .outOfFuel)
  | fuel + 1, st =>
    match st.undo_stack.getLast? with
    | none => (st, none)
    | some batch =>
      publish_events fuel { st with undo_stack := st.undo_stack.dropLast } batch true
termination_by structural fuel => fuel

/-- _redo_events: no-op on an empty redo stack, else pop the most recent batch
and resubmit it with is_undo = False. -/
def redo_events : Nat → XCoreState → XCoreState × Option XError
  | 0, st => (st, some .outOfFuel)
  | fuel + 1, st =>
    match st.redo_stack.getLast? with
    | none => (st, none)
    | some batch =>
      publish_events fuel { st with redo_stack := st.redo_stack.dropLast } batch false
termination_by structural fuel => fuel

/-- _clear_undo_redo_stacks: empty both stacks, then publish the counters. -/
def clear_undo_redo_stacks : Nat → XCoreState → XCoreState × Option XError
  | 0, st => (st, some .outOfFuel)
  | fuel + 1, st =>
    publish_undo_redo_counters fuel { st with undo_stack := [], redo_stack := [] }
termination_by structural fuel => fuel

/-- _publish_undo_redo_counters: broadcast the stack sizes from the core node. -/
def publish_undo_redo_counters : Nat → XCoreState → XCoreState × Option XError
  | 0, st => (st, some .outOfFuel)
  | fuel + 1, st =>
    broadcast fuel st "X_MAP_UNDO_REDO_COUNTERS" "X_CORE"
      [("undo_counter", st.undo_stack.length), ("redo_counter", st.redo_stack.length)]
termination_by structural fuel => fuel

/-- broadcast: event and sender checks, one event built per subscriber, one
extra event built for the log line (its failure also raises), and — only when
there is at least one receiver — submission with is_undo = False. -/
def broadcast : Nat → XCoreState → String → String → Params → XCoreState × Option XError
  | 0, st, _, _, _ => (st, some .outOfFuel)
  | fuel + 1, st, event_id, sender_id, parameters =>
    if (st.event_descriptions.lookup event_id).isNone then
      (st, some .broadcastUnknownEvent)
    else if !(st.node_ids.contains sender_id) then
      (st, some .broadcastUnknownSender)
    else
      match buildAll st event_id sender_id parameters (subscribersOf st event_id) with
      | .error e => (st, some e)
      | .ok events =>
        match build_event st event_id sender_id "BROADCAST" parameters with
        | .error e => (st, some e)
        | .ok _ =>
          if events.isEmpty then
            (st, none)
          else
            publish_events fuel st events false
termination_by structural fuel => fuel

end

/-- publish: the four validations in source order — event registered, sender
known, receiver known, receiver subscribed (checked against the handler table)
— then one built event submitted as a single-element batch with
is_undo = False. -/
def publish (fuel : Nat) (st : XCoreState) (event_id sender_id receiver_id : String)
    (parameters : Params) : XCoreState × Option XError :=
  if (st.event_descriptions.lookup event_id).isNone then
    (st, some .unknownEvent)
  else if !(st.node_ids.contains sender_id) then
    (st, some .unknownSender)
  else if !(st.node_ids.contains receiver_id) then
    (st, some .unknownReceiver)
  else if (st.event_handlers.lookup (event_id, receiver_id)).isNone then
    (st, some .receiverNotSubscribed)
  else
    match build_event st event_id sender_id receiver_id parameters with
    | .error e => (st, some e)
    | .ok ev => publish_events fuel st [ev] false

/-- add_undo_events: clear the redo stack, append, publish counters. -/
def add_undo_events (fuel : Nat) (st : XCoreState) (undo_evs : List XEvent) :
    XCoreState × Option XError :=
  publish_undo_redo_counters fuel
    (append_undo_events { st with redo_stack := [] } undo_evs)

/-- The configuration argument of start, as seen by a dynamically typed
runtime: absent (None), an actual configuration object, or an object of some
other type (a plain dict, a wrongly typed object, ...). -/
inductive ConfigArg where
  | noArg
  | config (c : XCoreConfiguration)
  | wrongType
deriving DecidableEq

/-- The delegator argument of start: absent, a proper delegator, or an object
that is not an IMainThreadDelegator. -/
inductive DelegatorArg where
  | noArg
  | delegator
  | wrongType
deriving DecidableEq

/-- start: adopt the configuration argument only when it isinstance-checks as
XCoreConfiguration (anything else is silently ignored and the active
configuration kept), validate the active configuration, validate and install
the delegator (None uninstalls), then broadcast X_CORE_START. -/
def start (fuel : Nat) (st : XCoreState) (cfg : ConfigArg) (d : DelegatorArg) :
    XCoreState × Option XError :=
  let st1 :=
    match cfg with
    | .config c => { st with config := c }
    | _ => st
  if st1.config.id_maximum_logging_length < 10 then
    (st1, some .invalidConfiguration)
  else
    match d with
    | .wrongType => (st1, some .invalidDelegatorType)
    | .delegator =>
      broadcast fuel { st1 with has_delegator := true } "X_CORE_START" "X_CORE" []
    | .noArg =>
      broadcast fuel { st1 with has_delegator := false } "X_CORE_START" "X_CORE" []

/-- The module-initial state of x_core.py: the reserved event descriptions,
the core node, its three subscriptions and three core handlers, empty stacks,
default configuration, no delegator, running on the main thread. -/
def initialState : XCoreState :=
  { event_descriptions := [
      ("X_CORE_START", { parameters := [], log_level := 20 }),
      ("X_UNDO_EVENT", { parameters := [], log_level := 20 }),
      ("X_REDO_EVENT", { parameters := [], log_level := 20 }),
      ("X_MAP_UNDO_REDO_COUNTERS",
        { parameters := [
            { name := "undo_counter", type := some "int",
              description := "Number of undo events." },
            { name := "redo_counter", type := some "int",
              description := "Number of redo events." }],
          log_level := 20 }),
      ("X_CLEAR_UNDO_REDO_EVENTS", { parameters := [], log_level := 20 })],
    node_ids := ["X_CORE"],
    event_subscriptions := [
      ("X_UNDO_EVENT", ["X_CORE"]),
      ("X_REDO_EVENT", ["X_CORE"]),
      ("X_CLEAR_UNDO_REDO_EVENTS", ["X_CORE"])],
    event_handlers := [
      (("X_UNDO_EVENT", "X_CORE"), .coreUndo),
      (("X_REDO_EVENT", "X_CORE"), .coreRedo),
      (("X_CLEAR_UNDO_REDO_EVENTS", "X_CORE"), .coreClear)],
    undo_stack := [],
    redo_stack := [],
    config := {},
    has_delegator := false,
    on_main_thread := true,
    executed := [],
    delegated := [] }

/-- A user handler is "plain" when it is an ordinary bound method (a fixed
returned value), i.e. not one of the three re-entrant core lambdas. -/
def isPlain : HandlerSpec → Bool
  | .result _ => true
  | _ => false

/-- Every handler installed in the state is a plain user handler or absent. -/
def plainHandlers (st : XCoreState) : Bool :=
  st.event_handlers.all (fun kh => isPlain kh.2)

/-- The fields of the state that batch dispatch never writes (registries,
configuration, threading environment). -/
def frameEq (a b : XCoreState) : Prop :=
  b.event_descriptions = a.event_descriptions ∧
  b.node_ids = a.node_ids ∧
  b.event_subscriptions = a.event_subscriptions ∧
  b.event_handlers = a.event_handlers ∧
  b.config = a.config ∧
  b.has_delegator = a.has_delegator ∧
  b.on_main_thread = a.on_main_thread

/-- Sequential committing of a prefix of bindings (what a partially failed
register_node call leaves behind). -/
def commitList (st : XCoreState) (node_id : String) (bs : List HandlerBinding) : XCoreState :=
  bs.foldl (fun s b => commitBinding s node_id b) st

/-! Concrete scenario states used by the claim theorems and witnesses. -/

/-- An event description with no parameters. -/
def edEmpty : XEventDescription := { parameters := [], log_level := 20 }

/-- Round-trip scenario: a node N handling event A with compensation U, whose
handler in turn compensates with R, whose handler compensates with U again. -/
def stRT : XCoreState :=
  { initialState with
    event_descriptions := initialState.event_descriptions ++
      [("A", edEmpty), ("U", edEmpty), ("R", edEmpty)],
    node_ids := initialState.node_ids ++ ["N"],
    event_subscriptions := initialState.event_subscriptions ++
      [("A", ["N"]), ("U", ["N"]), ("R", ["N"])],
    event_handlers := initialState.event_handlers ++
      [(("A", "N"), .result (.iterable [.pair "U" []])),
       (("U", "N"), .result (.iterable [.pair "R" []])),
       (("R", "N"), .result (.iterable [.pair "U" []]))] }

/-- State after dispatching A in the round-trip scenario. -/
def rtAfterPublish : XCoreState := (publish 30 stRT "A" "N" "N" []).1

/-- State after the subsequent undo. -/
def rtAfterUndo : XCoreState := (undo_events 30 rtAfterPublish).1

/-- State after the subsequent redo. -/
def rtAfterRedo : XCoreState := (redo_events 30 rtAfterUndo).1

/-- A concrete U event from node N to itself. -/
def uEvent : XEvent :=
  { id := "U", event_description := edEmpty, sender_id := "N", receiver_id := "N",
    parameters := [] }

/-- Round-trip scenario with a pending redo batch on the redo stack. -/
def stPendingRedo : XCoreState := { stRT with redo_stack := [[uEvent]] }

/-- Round-trip scenario called from a non-designated thread, relay configured. -/
def stOffRelay : XCoreState := { stRT with on_main_thread := false, has_delegator := true }

/-- Round-trip scenario called from a non-designated thread, no relay. -/
def stOffNoDel : XCoreState := { stRT with on_main_thread := false, has_delegator := false }

/-- Registration scenario: event E1 with one parameter p is registered. -/
def stReg : XCoreState :=
  { initialState with
    event_descriptions := initialState.event_descriptions ++
      [("E1", { parameters := [{ name := "p" }], log_level := 20 })] }

/-- A binding whose handler signature matches E1. -/
def bindGood : HandlerBinding :=
  { event_id := "E1", args := ["self", "p"], append_sender_id := false,
    handler := .result .nonIterable }

/-- A binding whose handler signature does not match E1. -/
def bindBad : HandlerBinding :=
  { event_id := "E1", args := ["self", "q"], append_sender_id := false,
    handler := .result .nonIterable }

/-- Publish-validation scenario: event E1, sender node S, receiver node RV
subscribed to E1, plus a second node S2 not subscribed. -/
def stPub : XCoreState :=
  { initialState with
    event_descriptions := initialState.event_descriptions ++
      [("E1", { parameters := [{ name := "p" }], log_level := 20 })],
    node_ids := initialState.node_ids ++ ["S", "RV"],
    event_subscriptions := initialState.event_subscriptions ++ [("E1", ["RV"])],
    event_handlers := initialState.event_handlers ++
      [(("E1", "RV"), .result .nonIterable)] }

/-- The event publish builds in the stPub scenario. -/
def pubEvent : XEvent :=
  { id := "E1", event_description := { parameters := [{ name := "p" }], log_level := 20 },
    sender_id := "S", receiver_id := "RV", parameters := [("p", 7)] }

/-- Batch-failure scenario: node N handles OK (one good compensation built on
event U) and BAD (an iterable containing an element that is not a 2-tuple). -/
def stBatch : XCoreState :=
  { initialState with
    event_descriptions := initialState.event_descriptions ++
      [("OK", edEmpty), ("BAD", edEmpty), ("U", edEmpty)],
    node_ids := initialState.node_ids ++ ["N"],
    event_subscriptions := initialState.event_subscriptions ++
      [("OK", ["N"]), ("BAD", ["N"])],
    event_handlers := initialState.event_handlers ++
      [(("OK", "N"), .result (.iterable [.pair "U" []])),
       (("BAD", "N"), .result (.iterable [.notPair]))] }

/-- A concrete OK event in the stBatch scenario. -/
def okEvent : XEvent :=
  { id := "OK", event_description := edEmpty, sender_id := "N", receiver_id := "N",
    parameters := [] }

/-- A concrete BAD event in the stBatch scenario. -/
def badEvent : XEvent :=
  { id := "BAD", event_description := edEmpty, sender_id := "N", receiver_id := "N",
    parameters := [] }

/-- Scenario whose handlers all return None (a non-iterable). -/
def stNone : XCoreState :=
  { initialState with
    event_descriptions := initialState.event_descriptions ++ [("OK", edEmpty)],
    node_ids := initialState.node_ids ++ ["N"],
    event_subscriptions := initialState.event_subscriptions ++ [("OK", ["N"])],
    event_handlers := initialState.event_handlers ++
      [(("OK", "N"), .result .nonIterable)] }

/-- A concrete OK event in the stNone scenario. -/
def okEventNone : XEvent :=
  { id := "OK", event_description := edEmpty, sender_id := "N", receiver_id := "N",
    parameters := [] }

/-- Unregistration scenario: nodes N1 and N2, events E1 and E2; N1 subscribes
to both events, N2 to E1 only. -/
def stUnreg : XCoreState :=
  { initialState with
    event_descriptions := initialState.event_descriptions ++
      [("E1", edEmpty), ("E2", edEmpty)],
    node_ids := initialState.node_ids ++ ["N1", "N2"],
    event_subscriptions := initialState.event_subscriptions ++
      [("E1", ["N1", "N2"]), ("E2", ["N1"])],
    event_handlers := initialState.event_handlers ++
      [(("E1", "N1"), .result .nonIterable),
       (("E1", "N2"), .result .nonIterable),
       (("E2", "N1"), .result .nonIterable)] }

/-- A configuration rejected by start's validation (column width below 10). -/
def badConfig : XCoreConfiguration := { id_maximum_logging_length := 5 }

/-- Round-trip scenario restricted to plain user handlers (the three built-in
core handlers are not installed), with a pending redo batch. -/
def stPlain : XCoreState :=
  { stRT with
    event_handlers := [
      (("A", "N"), .result (.iterable [.pair "U" []])),
      (("U", "N"), .result (.iterable [.pair "R" []])),
      (("R", "N"), .result (.iterable [.pair "U" []]))],
    redo_stack := [[uEvent]] }

/-- Batch-failure scenario restricted to plain user handlers. -/
def stBatchPlain : XCoreState :=
  { stBatch with
    event_handlers := [
      (("OK", "N"), .result (.iterable [.pair "U" []])),
      (("BAD", "N"), .result (.iterable [.notPair]))] }

/-- The batch whose second event's handler produces a malformed undo element. -/
def batchFailEvents : List XEvent := [okEvent, badEvent, okEvent]

/-- The state left behind by the failing batch loop. -/
def stBatchFail : XCoreState := (execute_batch 10 stBatchPlain batchFailEvents).1

/-- Round-trip scenario with an undo-stack capacity of one batch. -/
def stCap : XCoreState := { stRT with config := { maximum_undo_events := 1 } }

/-- Round-trip scenario with unbounded undo stack (negative maximum). -/
def stCapNeg : XCoreState := { stRT with config := { maximum_undo_events := -1 } }

/-! General lemmas about the embedded operations. -/

theorem append_undo_events_undo_stack (st : XCoreState) (b : List XEvent) :
    (append_undo_events st b).undo_stack =
      if st.config.maximum_undo_events < 0 then st.undo_stack ++ [b]
      else if ((st.undo_stack.length + 1 : Nat) : Int) > st.config.maximum_undo_events then
        (st.undo_stack ++ [b]).tail
      else st.undo_stack ++ [b] := by
  unfold append_undo_events
  dsimp only
  have hlen : (((st.undo_stack ++ [b]).length : Nat) : Int) =
      ((st.undo_stack.length + 1 : Nat) : Int) := by
    rw [List.length_append, List.length_singleton]
  rw [hlen]
  split
  · rfl
  · split <;> rfl

theorem append_undo_events_frame (st : XCoreState) (b : List XEvent) :
    frameEq st (append_undo_events st b) ∧
    (append_undo_events st b).redo_stack = st.redo_stack ∧
    (append_undo_events st b).executed = st.executed ∧
    (append_undo_events st b).delegated = st.delegated := by
  unfold append_undo_events frameEq
  dsimp only
  split
  · simp
  · split <;> simp

theorem foldl_append_undo_neg :
    ∀ (bs : List (List XEvent)) (st : XCoreState),
      st.config.maximum_undo_events < 0 →
      (bs.foldl append_undo_events st).undo_stack = st.undo_stack ++ bs := by
  intro bs
  induction bs with
  | nil => intro st _; simp
  | cons b rest ih =>
    intro st h
    have hc : (append_undo_events st b).config = st.config :=
      (append_undo_events_frame st b).1.2.2.2.2.1
    have hu : (append_undo_events st b).undo_stack = st.undo_stack ++ [b] := by
      rw [append_undo_events_undo_stack, if_pos h]
    rw [List.foldl_cons, ih _ (by rw [hc]; exact h), hu, List.append_assoc]
    rfl

theorem foldl_append_undo_drop :
    ∀ (N : Nat) (bs : List (List XEvent)) (st : XCoreState),
      st.config.maximum_undo_events = (N : Int) →
      st.undo_stack.length ≤ N →
      (bs.foldl append_undo_events st).undo_stack =
        (st.undo_stack ++ bs).drop (st.undo_stack.length + bs.length - N) := by
  intro N bs
  induction bs with
  | nil =>
    intro st hN hlen
    have h0 : st.undo_stack.length + List.length ([] : List (List XEvent)) - N = 0 := by
      simp only [List.length_nil]; omega
    rw [List.foldl_nil, List.append_nil, h0, List.drop_zero]
  | cons b rest ih =>
    intro st hN hlen
    have hc : (append_undo_events st b).config = st.config :=
      (append_undo_events_frame st b).1.2.2.2.2.1
    rw [List.foldl_cons]
    by_cases hcase : st.undo_stack.length + 1 ≤ N
    · -- no eviction at this push
      have hu : (append_undo_events st b).undo_stack = st.undo_stack ++ [b] := by
        rw [append_undo_events_undo_stack, if_neg (by rw [hN]; omega),
            if_neg (by rw [hN]; omega)]
      have hl2 : (append_undo_events st b).undo_stack.length ≤ N := by
        rw [hu, List.length_append, List.length_singleton]; omega
      have ihres := ih (append_undo_events st b) (by rw [hc, hN]) hl2
      rw [ihres, hu]
      have harr : st.undo_stack ++ [b] ++ rest = st.undo_stack ++ (b :: rest) := by
        rw [List.append_assoc]; rfl
      have hidx : (st.undo_stack ++ [b]).length + rest.length - N =
          st.undo_stack.length + (b :: rest).length - N := by
        rw [List.length_append, List.length_singleton, List.length_cons]; omega
      rw [harr, hidx]
    · -- this push evicts the oldest batch
      have hlenN : st.undo_stack.length = N := by omega
      have hu : (append_undo_events st b).undo_stack = (st.undo_stack ++ [b]).tail := by
        rw [append_undo_events_undo_stack, if_neg (by rw [hN]; omega),
            if_pos (by rw [hN]; omega)]
      have htl : ((st.undo_stack ++ [b]).tail).length = N := by
        rw [List.length_tail, List.length_append, List.length_singleton]; omega
      have ihres := ih (append_undo_events st b) (by rw [hc, hN]) (by rw [hu, htl])
      rw [ihres, hu, htl]
      have hidx0 : N + rest.length - N = rest.length := by omega
      rw [hidx0, ← List.drop_one]
      have hsplit : ((st.undo_stack ++ [b]) ++ rest).drop 1 =
          (st.undo_stack ++ [b]).drop 1 ++ rest :=
        @List.drop_append_of_le_length _ (st.undo_stack ++ [b]) rest 1
          (by rw [List.length_append, List.length_singleton]; omega)
      rw [← hsplit, List.drop_drop]
      have harr : st.undo_stack ++ [b] ++ rest = st.undo_stack ++ (b :: rest) := by
        rw [List.append_assoc]; rfl
      have hidx : 1 + rest.length = st.undo_stack.length + (b :: rest).length - N := by
        rw [List.length_cons]; omega
      rw [harr, ← hidx]

/-- C5: with maximum_undo_events = N ≥ 0, pushing N + 1 batches onto an empty
Undo Stack leaves exactly N batches and the discarded batch is the oldest
(first-pushed) one; with a negative maximum (unbounded mode, e.g. -1) no push
ever evicts, so after k pushes the stack holds all k batches, for every k. -/
theorem undo_stack_capacity :
    (∀ (N : Nat) (st : XCoreState) (batches : List (List XEvent)),
       st.config.maximum_undo_events = (N : Int) →
       st.undo_stack = [] →
       batches.length = N + 1 →
       (batches.foldl append_undo_events st).undo_stack = batches.tail ∧
       (batches.foldl append_undo_events st).undo_stack.length = N) ∧
    (∀ (st : XCoreState) (batches : List (List XEvent)),
       st.config.maximum_undo_events < 0 →
       st.undo_stack = [] →
       (batches.foldl append_undo_events st).undo_stack = batches) := by
  constructor
  · intro N st batches hN hemp hlen
    have h := foldl_append_undo_drop N batches st hN (by rw [hemp]; simp)
    rw [hemp] at h
    simp only [List.nil_append, List.length_nil, Nat.zero_add] at h
    rw [hlen] at h
    have h1 : N + 1 - N = 1 := by omega
    rw [h1, List.drop_one] at h
    refine ⟨h, ?_⟩
    rw [h, List.length_tail, hlen]
    omega
  · intro st batches hneg hemp
    rw [foldl_append_undo_neg batches st hneg, hemp, List.nil_append]

/-- Witness for undo_stack_capacity: capacity 1 with two pushes keeps only the
second batch; capacity -1 with three pushes keeps all three. -/
theorem undo_stack_capacity_witness :
    ((([[uEvent], [okEvent]] : List (List XEvent)).foldl append_undo_events stCap).undo_stack
        = [[okEvent]] ∧
     (([[uEvent], [okEvent]] : List (List XEvent)).foldl append_undo_events stCap).undo_stack.length
        = 1) ∧
    (([[uEvent], [okEvent], [uEvent]] : List (List XEvent)).foldl append_undo_events
        stCapNeg).undo_stack = [[uEvent], [okEvent], [uEvent]] := by
  have h1 := undo_stack_capacity.1 1 stCap [[uEvent], [okEvent]]
    (by decide) (by decide) (by decide)
  have h2 := undo_stack_capacity.2 stCapNeg [[uEvent], [okEvent], [uEvent]]
    (by decide) (by decide)
  exact ⟨⟨h1.1, h1.2⟩, h2⟩

theorem frameEq_refl (a : XCoreState) : frameEq a a :=
  ⟨rfl, rfl, rfl, rfl, rfl, rfl, rfl⟩

theorem frameEq_trans {a b c : XCoreState} (h1 : frameEq a b) (h2 : frameEq b c) :
    frameEq a c := by
  obtain ⟨x1, x2, x3, x4, x5, x6, x7⟩ := h1
  obtain ⟨y1, y2, y3, y4, y5, y6, y7⟩ := h2
  exact ⟨y1.trans x1, y2.trans x2, y3.trans x3, y4.trans x4, y5.trans x5,
         y6.trans x6, y7.trans x7⟩

/-- Batch dispatch never writes the registries, the configuration or the
threading environment: every function of the dispatch cycle returns a state
frame-equal to its input. -/
theorem frame_all : ∀ fuel : Nat,
    (∀ st events is_undo, frameEq st (publish_events fuel st events is_undo).1) ∧
    (∀ st events is_undo,
      frameEq st (publish_events_in_main_thread fuel st events is_undo).1) ∧
    (∀ st events, frameEq st (execute_batch fuel st events).1) ∧
    (∀ st event, frameEq st (execute_event fuel st event).1) ∧
    (∀ st, frameEq st (undo_events fuel st).1) ∧
    (∀ st, frameEq st (redo_events fuel st).1) ∧
    (∀ st, frameEq st (clear_undo_redo_stacks fuel st).1) ∧
    (∀ st, frameEq st (publish_undo_redo_counters fuel st).1) ∧
    (∀ st eid sid ps, frameEq st (broadcast fuel st eid sid ps).1) := by
  intro fuel
  induction fuel with
  | zero =>
    exact ⟨fun st _ _ => frameEq_refl st, fun st _ _ => frameEq_refl st,
           fun st _ => frameEq_refl st, fun st _ => frameEq_refl st,
           fun st => frameEq_refl st, fun st => frameEq_refl st,
           fun st => frameEq_refl st, fun st => frameEq_refl st,
           fun st _ _ _ => frameEq_refl st⟩
  | succ n ih =>
    obtain ⟨ihPE, ihPM, ihEB, ihEE, ihUN, ihRE, ihCL, ihCT, ihBC⟩ := ih
    refine ⟨?_, ?_, ?_, ?_, ?_, ?_, ?_, ?_, ?_⟩
    · -- publish_events
      intro st events is_undo
      simp only [publish_events]
      split
      · exact ihPM st events is_undo
      · split
        · exact ⟨rfl, rfl, rfl, rfl, rfl, rfl, rfl⟩
        · exact frameEq_refl st
    · -- publish_events_in_main_thread
      intro st events is_undo
      simp only [publish_events_in_main_thread]
      split
      · exact frameEq_refl st
      · rcases hb : execute_batch n st events with ⟨st1, u, err⟩
        have hframe1 : frameEq st st1 := by
          have h := ihEB st events
          rw [hb] at h
          exact h
        cases err with
        | some e => exact hframe1
        | none =>
          have hst2 : frameEq st
              (if u.isEmpty then st1
               else if is_undo then { st1 with redo_stack := st1.redo_stack ++ [u.reverse] }
               else append_undo_events st1 u.reverse) := by
            split
            · exact hframe1
            · split
              · exact frameEq_trans hframe1 ⟨rfl, rfl, rfl, rfl, rfl, rfl, rfl⟩
              · exact frameEq_trans hframe1 (append_undo_events_frame st1 u.reverse).1
          dsimp only
          split
          · exact frameEq_trans hst2 (ihCT _)
          · exact hst2
    · -- execute_batch
      intro st events
      cases events with
      | nil => simp only [execute_batch]; exact frameEq_refl st
      | cons e rest =>
        simp only [execute_batch]
        rcases he : execute_event n st e with ⟨st1, r, err⟩
        have hframe1 : frameEq st st1 := by
          have h := ihEE st e
          rw [he] at h
          exact h
        cases err with
        | some e2 => exact hframe1
        | none =>
          dsimp only
          cases hx : extract_undo_events st1 r e.receiver_id with
          | error e2 => exact hframe1
          | ok evs =>
            exact frameEq_trans hframe1 (ihEB st1 rest)
    · -- execute_event
      intro st event
      simp only [execute_event]
      cases hh : handlerOf st event.id event.receiver_id with
      | none => exact frameEq_refl st
      | some hspec =>
        have hupd : frameEq st { st with executed := st.executed ++ [event] } :=
          ⟨rfl, rfl, rfl, rfl, rfl, rfl, rfl⟩
        cases hspec with
        | result r => exact hupd
        | coreUndo =>
          rcases hu : undo_events n { st with executed := st.executed ++ [event] }
            with ⟨st2, err⟩
          have h := ihUN { st with executed := st.executed ++ [event] }
          rw [hu] at h
          exact frameEq_trans hupd h
        | coreRedo =>
          rcases hu : redo_events n { st with executed := st.executed ++ [event] }
            with ⟨st2, err⟩
          have h := ihRE { st with executed := st.executed ++ [event] }
          rw [hu] at h
          exact frameEq_trans hupd h
        | coreClear =>
          rcases hu : clear_undo_redo_stacks n { st with executed := st.executed ++ [event] }
            with ⟨st2, err⟩
          have h := ihCL { st with executed := st.executed ++ [event] }
          rw [hu] at h
          exact frameEq_trans hupd h
    · -- undo_events
      intro st
      simp only [undo_events]
      cases st.undo_stack.getLast? with
      | none => exact frameEq_refl st
      | some batch =>
        exact frameEq_trans ⟨rfl, rfl, rfl, rfl, rfl, rfl, rfl⟩
          (ihPE { st with undo_stack := st.undo_stack.dropLast } batch true)
    · -- redo_events
      intro st
      simp only [redo_events]
      cases st.redo_stack.getLast? with
      | none => exact frameEq_refl st
      | some batch =>
        exact frameEq_trans ⟨rfl, rfl, rfl, rfl, rfl, rfl, rfl⟩
          (ihPE { st with redo_stack := st.redo_stack.dropLast } batch false)
    · -- clear_undo_redo_stacks
      intro st
      simp only [clear_undo_redo_stacks]
      exact frameEq_trans ⟨rfl, rfl, rfl, rfl, rfl, rfl, rfl⟩
        (ihCT { st with undo_stack := [], redo_stack := [] })
    · -- publish_undo_redo_counters
      intro st
      simp only [publish_undo_redo_counters]
      exact ihBC st "X_MAP_UNDO_REDO_COUNTERS" "X_CORE"
        [("undo_counter", st.undo_stack.length), ("redo_counter", st.redo_stack.length)]
    · -- broadcast
      intro st eid sid ps
      simp only [broadcast]
      split
      · exact frameEq_refl st
      · split
        · exact frameEq_refl st
        · cases buildAll st eid sid ps (subscribersOf st eid) with
          | error e => exact frameEq_refl st
          | ok events =>
            cases build_event st eid sid "BROADCAST" ps with
            | error e => exact frameEq_refl st
            | ok ev =>
              dsimp only
              split
              · exact frameEq_refl st
              · exact ihPE st events false

theorem mem_of_lookup_eq_some {α β : Type} [BEq α] [LawfulBEq α]
    {l : List (α × β)} {k : α} {v : β} (h : l.lookup k = some v) : (k, v) ∈ l := by
  induction l with
  | nil => simp [List.lookup] at h
  | cons p rest ih =>
    obtain ⟨a, b⟩ := p
    simp only [List.lookup] at h
    by_cases hk : k = a
    · subst hk
      simp only [beq_self_eq_true] at h
      cases h
      exact List.mem_cons_self _ _
    · have hbeq : (k == a) = false := by simp [hk]
      rw [hbeq] at h
      exact List.mem_cons_of_mem _ (ih h)

theorem plain_of_handlerOf {st : XCoreState} {eid nid : String} {h : HandlerSpec}
    (hp : plainHandlers st = true) (hl : handlerOf st eid nid = some h) :
    ∃ r, h = .result r := by
  have hmem : ((eid, nid), h) ∈ st.event_handlers := mem_of_lookup_eq_some hl
  have hplain := List.all_eq_true.mp hp _ hmem
  cases h with
  | result r => exact ⟨r, rfl⟩
  | coreUndo => simp [isPlain] at hplain
  | coreRedo => simp [isPlain] at hplain
  | coreClear => simp [isPlain] at hplain

theorem plainHandlers_of_frameEq {a b : XCoreState} (h : frameEq a b)
    (hp : plainHandlers a = true) : plainHandlers b = true := by
  unfold plainHandlers at hp ⊢
  rw [h.2.2.2.1]
  exact hp

/-- When every installed handler is a plain user handler (no re-entrant core
handler), non-undo dispatch never touches the redo stack, and the batch loop
itself touches neither stack. -/
theorem plain_preserve : ∀ fuel : Nat,
    (∀ st events, plainHandlers st = true →
       (publish_events fuel st events false).1.redo_stack = st.redo_stack) ∧
    (∀ st events, plainHandlers st = true →
       (publish_events_in_main_thread fuel st events false).1.redo_stack = st.redo_stack) ∧
    (∀ st events, plainHandlers st = true →
       (execute_batch fuel st events).1.redo_stack = st.redo_stack ∧
       (execute_batch fuel st events).1.undo_stack = st.undo_stack) ∧
    (∀ st event, plainHandlers st = true →
       (execute_event fuel st event).1.redo_stack = st.redo_stack ∧
       (execute_event fuel st event).1.undo_stack = st.undo_stack) ∧
    (∀ st, plainHandlers st = true →
       (publish_undo_redo_counters fuel st).1.redo_stack = st.redo_stack) ∧
    (∀ st eid sid ps, plainHandlers st = true →
       (broadcast fuel st eid sid ps).1.redo_stack = st.redo_stack) := by
  intro fuel
  induction fuel with
  | zero =>
    exact ⟨fun _ _ _ => rfl, fun _ _ _ => rfl, fun _ _ _ => ⟨rfl, rfl⟩,
           fun _ _ _ => ⟨rfl, rfl⟩, fun _ _ => rfl, fun _ _ _ _ _ => rfl⟩
  | succ n ih =>
    obtain ⟨iPE, iPM, iEB, iEE, iCT, iBC⟩ := ih
    refine ⟨?_, ?_, ?_, ?_, ?_, ?_⟩
    · -- publish_events with is_undo = false
      intro st events hp
      simp only [publish_events]
      split
      · exact iPM st events hp
      · split
        · rfl
        · rfl
    · -- publish_events_in_main_thread with is_undo = false
      intro st events hp
      simp only [publish_events_in_main_thread]
      split
      · rfl
      · rcases hb : execute_batch n st events with ⟨st1, u, err⟩
        have hEB := iEB st events hp
        rw [hb] at hEB
        have hplain1 : plainHandlers st1 = true := by
          have hf := (frame_all n).2.2.1 st events
          rw [hb] at hf
          exact plainHandlers_of_frameEq hf hp
        cases err with
        | some e => exact hEB.1
        | none =>
          dsimp only
          have key : ∀ s2 : XCoreState, s2.redo_stack = st.redo_stack →
              plainHandlers s2 = true →
              ((if (!u.isEmpty || false) = true
                then publish_undo_redo_counters n s2
                else (s2, none)).1).redo_stack = st.redo_stack := by
            intro s2 h1 h2
            split
            · exact (iCT s2 h2).trans h1
            · exact h1
          apply key
          · split
            · exact hEB.1
            · split
              · simp_all
              · rw [(append_undo_events_frame st1 u.reverse).2.1]
                exact hEB.1
          · split
            · exact hplain1
            · split
              · simp_all
              · exact plainHandlers_of_frameEq
                  (append_undo_events_frame st1 u.reverse).1 hplain1
    · -- execute_batch
      intro st events hp
      cases events with
      | nil => simp [execute_batch]
      | cons e rest =>
        simp only [execute_batch]
        rcases he : execute_event n st e with ⟨st1, r, err⟩
        have hEE := iEE st e hp
        rw [he] at hEE
        have hplain1 : plainHandlers st1 = true := by
          have hf := (frame_all n).2.2.2.1 st e
          rw [he] at hf
          exact plainHandlers_of_frameEq hf hp
        cases err with
        | some e2 => exact hEE
        | none =>
          dsimp only
          cases hx : extract_undo_events st1 r e.receiver_id with
          | error e2 => exact hEE
          | ok evs =>
            have hEB := iEB st1 rest hplain1
            exact ⟨hEB.1.trans hEE.1, hEB.2.trans hEE.2⟩
    · -- execute_event
      intro st event hp
      simp only [execute_event]
      cases hh : handlerOf st event.id event.receiver_id with
      | none => exact ⟨rfl, rfl⟩
      | some hspec =>
        obtain ⟨r, rfl⟩ := plain_of_handlerOf hp hh
        exact ⟨rfl, rfl⟩
    · -- publish_undo_redo_counters
      intro st hp
      simp only [publish_undo_redo_counters]
      exact iBC st "X_MAP_UNDO_REDO_COUNTERS" "X_CORE"
        [("undo_counter", st.undo_stack.length), ("redo_counter", st.redo_stack.length)] hp
    · -- broadcast
      intro st eid sid ps hp
      simp only [broadcast]
      split
      · rfl
      · split
        · rfl
        · cases buildAll st eid sid ps (subscribersOf st eid) with
          | error e => rfl
          | ok events =>
            cases build_event st eid sid "BROADCAST" ps with
            | error e => rfl
            | ok ev =>
              dsimp only
              split
              · rfl
              · exact iPE st events hp

/-- C4: in the round-trip scenario (handler of A returns exactly one
compensation (U, {..}), handler of U returns the redo compensation (R, {..})),
dispatching A, then undoing, then redoing: U is executed exactly once with the
original receiver N as both sender and target, the redo compensation R is then
executed exactly once, and the (undo stack, redo stack) sizes evolve
(1,0) → (0,1) → (1,0). -/
theorem undo_redo_round_trip :
    (publish 30 stRT "A" "N" "N" []).2 = none ∧
    rtAfterPublish.undo_stack.length = 1 ∧ rtAfterPublish.redo_stack.length = 0 ∧
    (rtAfterPublish.executed.filter (fun ev => ev.id == "U")).length = 0 ∧
    (undo_events 30 rtAfterPublish).2 = none ∧
    rtAfterUndo.undo_stack.length = 0 ∧ rtAfterUndo.redo_stack.length = 1 ∧
    (rtAfterUndo.executed.filter (fun ev => ev.id == "U")).map
        (fun ev => (ev.sender_id, ev.receiver_id)) = [("N", "N")] ∧
    (redo_events 30 rtAfterUndo).2 = none ∧
    rtAfterRedo.undo_stack.length = 1 ∧ rtAfterRedo.redo_stack.length = 0 ∧
    (rtAfterRedo.executed.filter (fun ev => ev.id == "R")).length = 1 := by
  decide

/-- C2: off the designated thread with no relay the submission fails with the
NotOnMainThread error; with a relay the relay receives the exact batch, but the
is_undo flag it receives is always false — even when the batch was submitted
with is_undo = true (delegate_events is called with the literal is_undo=False,
dropping the caller's flag). -/
theorem off_thread_dispatch_behaviour :
    publish_events 5 stOffNoDel [uEvent] true = (stOffNoDel, some .notOnMainThread) ∧
    (publish_events 5 stOffRelay [uEvent] true).2 = none ∧
    (publish_events 5 stOffRelay [uEvent] true).1.delegated = [([uEvent], false)] := by
  decide

/-- C1 is refuted at this input: the redo stack is non-empty, the publish call
succeeds and yields one undo batch, yet the redo stack afterwards is exactly
what it was before (not empty). -/
theorem redo_stack_not_cleared_counterexample :
    stPendingRedo.redo_stack ≠ [] ∧
    (publish 30 stPendingRedo "A" "N" "N" []).2 = none ∧
    (publish 30 stPendingRedo "A" "N" "N" []).1.undo_stack.length = 1 ∧
    (publish 30 stPendingRedo "A" "N" "N" []).1.redo_stack = stPendingRedo.redo_stack := by
  decide

/-- C1 (amended): a publish or broadcast call — whether or not it yields undo
Events — leaves the Redo Stack unchanged rather than emptying it, provided no
installed handler re-enters the undo/redo machinery (only add_undo_events and
the clear operation ever empty the Redo Stack). -/
theorem new_action_leaves_redo_stack_unchanged :
    ∀ fuel st eid sid rid ps st1 r1 st2 r2,
      plainHandlers st = true →
      publish fuel st eid sid rid ps = (st1, r1) →
      broadcast fuel st eid sid ps = (st2, r2) →
      st1.redo_stack = st.redo_stack ∧ st2.redo_stack = st.redo_stack := by
  intro fuel st eid sid rid ps st1 r1 st2 r2 hp hpub hbc
  constructor
  · have h : (publish fuel st eid sid rid ps).1.redo_stack = st.redo_stack := by
      unfold publish
      split
      · rfl
      · split
        · rfl
        · split
          · rfl
          · split
            · rfl
            · cases hbe : build_event st eid sid rid ps with
              | error e => rfl
              | ok ev => exact (plain_preserve fuel).1 st [ev] hp
    rw [hpub] at h
    exact h
  · have h : (broadcast fuel st eid sid ps).1.redo_stack = st.redo_stack :=
      (plain_preserve fuel).2.2.2.2.2 st eid sid ps hp
    rw [hbc] at h
    exact h

/-- Witness for new_action_leaves_redo_stack_unchanged in the plain-handler
round-trip scenario with a pending redo batch. -/
theorem new_action_leaves_redo_stack_unchanged_witness :
    plainHandlers stPlain = true ∧
    (publish 30 stPlain "A" "N" "N" []).1.redo_stack = stPlain.redo_stack ∧
    (broadcast 30 stPlain "A" "N" []).1.redo_stack = stPlain.redo_stack := by
  have h := new_action_leaves_redo_stack_unchanged 30 stPlain "A" "N" "N" []
    (publish 30 stPlain "A" "N" "N" []).1 (publish 30 stPlain "A" "N" "N" []).2
    (broadcast 30 stPlain "A" "N" []).1 (broadcast 30 stPlain "A" "N" []).2
    (by decide) rfl rfl
  exact ⟨by decide, h.1, h.2⟩

/-- C3 is refuted at this input: register_node with a valid first binding and
a parameter-mismatched second binding fails, yet the subscription table and
the handler table already contain the first binding (only the node-identifier
set is as before). -/
theorem register_node_not_atomic_counterexample :
    (register_node stReg "N" [bindGood, bindBad]).2 = some .handlerParameterMismatch ∧
    (register_node stReg "N" [bindGood, bindBad]).1.event_subscriptions
      ≠ stReg.event_subscriptions ∧
    (register_node stReg "N" [bindGood, bindBad]).1.event_handlers
      ≠ stReg.event_handlers ∧
    subscribersOf (register_node stReg "N" [bindGood, bindBad]).1 "E1" = ["N"] ∧
    (register_node stReg "N" [bindGood, bindBad]).1.node_ids = stReg.node_ids := by
  decide

/-- C3 (amended): register_node validates and commits bindings one at a time,
so a failed call leaves the node-identifier set unchanged but leaves the
subscription and handler tables exactly as produced by committing the bindings
processed before the failure: the final state is the commit of some prefix of
the binding list. -/
theorem register_node_failure_prefix :
    ∀ st nid bs st1 e,
      register_node st nid bs = (st1, some e) →
      st1.node_ids = st.node_ids ∧
      ∃ k ≤ bs.length, st1 = commitList st nid (bs.take k) := by
  have key : ∀ (nid : String) (bs : List HandlerBinding) (st st1 : XCoreState) (e : XError),
      registerBindings st nid bs = (st1, some e) →
      st1.node_ids = st.node_ids ∧
      ∃ k ≤ bs.length, st1 = commitList st nid (bs.take k) := by
    intro nid bs
    induction bs with
    | nil =>
      intro st st1 e h
      simp [registerBindings] at h
    | cons b rest ih =>
      intro st st1 e h
      simp only [registerBindings] at h
      cases hlk : st.event_descriptions.lookup b.event_id with
      | none =>
        rw [hlk] at h
        obtain ⟨h1, _⟩ := Prod.mk.injEq .. ▸ h
        refine ⟨by rw [← h1], 0, by omega, by rw [← h1]; rfl⟩
      | some ed =>
        rw [hlk] at h
        dsimp only at h
        by_cases hflag : (b.append_sender_id && !b.args.contains "sender_id") = true
        · rw [if_pos hflag] at h
          obtain ⟨h1, _⟩ := Prod.mk.injEq .. ▸ h
          refine ⟨by rw [← h1], 0, by omega, by rw [← h1]; rfl⟩
        · rw [if_neg hflag] at h
          by_cases hmatch : (!sameNameSet (get_parameter_names ed)
              ((b.args.erase "self").erase "sender_id")) = true
          · rw [if_pos hmatch] at h
            obtain ⟨h1, _⟩ := Prod.mk.injEq .. ▸ h
            refine ⟨by rw [← h1], 0, by omega, by rw [← h1]; rfl⟩
          · rw [if_neg hmatch] at h
            obtain ⟨hn, k, hk, hst⟩ := ih (commitBinding st nid b) st1 e h
            refine ⟨hn, k + 1, by simp; omega, ?_⟩
            rw [hst, List.take_succ_cons]
            rfl
  intro st nid bs st1 e h
  unfold register_node at h
  split at h
  · obtain ⟨h1, _⟩ := Prod.mk.injEq .. ▸ h
    refine ⟨by rw [← h1], 0, by omega, by rw [← h1]; rfl⟩
  · exact key nid bs st st1 e h

/-- Witness for register_node_failure_prefix at the two-binding input. -/
theorem register_node_failure_prefix_witness :
    (register_node stReg "N" [bindGood, bindBad]).1.node_ids = stReg.node_ids ∧
    ∃ k ≤ ([bindGood, bindBad] : List HandlerBinding).length,
      (register_node stReg "N" [bindGood, bindBad]).1 =
        commitList stReg "N" ([bindGood, bindBad].take k) := by
  exact register_node_failure_prefix stReg "N" [bindGood, bindBad]
    (register_node stReg "N" [bindGood, bindBad]).1 .handlerParameterMismatch
    (by decide)

/-- C6: publish validates, in order, that the event is registered, the sender
is a known node, the receiver is a known node, and the receiver is subscribed
to the event (handler table), each check failing with its own error; the four
errors are pairwise distinct; and when all four checks hold and the event
builds, exactly one Event is submitted as a single-element batch with
is_undo = false. -/
theorem publish_validation_order :
    ∀ fuel st eid sid rid ps,
      (st.event_descriptions.lookup eid = none →
        publish fuel st eid sid rid ps = (st, some .unknownEvent)) ∧
      ((st.event_descriptions.lookup eid).isSome = true →
        st.node_ids.contains sid = false →
        publish fuel st eid sid rid ps = (st, some .unknownSender)) ∧
      ((st.event_descriptions.lookup eid).isSome = true →
        st.node_ids.contains sid = true →
        st.node_ids.contains rid = false →
        publish fuel st eid sid rid ps = (st, some .unknownReceiver)) ∧
      ((st.event_descriptions.lookup eid).isSome = true →
        st.node_ids.contains sid = true →
        st.node_ids.contains rid = true →
        st.event_handlers.lookup (eid, rid) = none →
        publish fuel st eid sid rid ps = (st, some .receiverNotSubscribed)) ∧
      (∀ ev, (st.event_descriptions.lookup eid).isSome = true →
        st.node_ids.contains sid = true →
        st.node_ids.contains rid = true →
        (st.event_handlers.lookup (eid, rid)).isSome = true →
        build_event st eid sid rid ps = .ok ev →
        publish fuel st eid sid rid ps = publish_events fuel st [ev] false) ∧
      ([XError.unknownEvent, .unknownSender, .unknownReceiver,
        .receiverNotSubscribed] : List XError).Nodup := by
  intro fuel st eid sid rid ps
  refine ⟨?_, ?_, ?_, ?_, ?_, by decide⟩
  · intro h
    unfold publish
    rw [if_pos (by rw [h]; rfl)]
  · intro h1 h2
    obtain ⟨ed, hed⟩ := Option.isSome_iff_exists.mp h1
    unfold publish
    rw [if_neg (by rw [hed]; simp), if_pos (by rw [h2]; rfl)]
  · intro h1 h2 h3
    obtain ⟨ed, hed⟩ := Option.isSome_iff_exists.mp h1
    unfold publish
    rw [if_neg (by rw [hed]; simp), if_neg (by rw [h2]; simp),
        if_pos (by rw [h3]; rfl)]
  · intro h1 h2 h3 h4
    obtain ⟨ed, hed⟩ := Option.isSome_iff_exists.mp h1
    unfold publish
    rw [if_neg (by rw [hed]; simp), if_neg (by rw [h2]; simp),
        if_neg (by rw [h3]; simp), if_pos (by rw [h4]; rfl)]
  · intro ev h1 h2 h3 h4 hbuild
    obtain ⟨ed, hed⟩ := Option.isSome_iff_exists.mp h1
    obtain ⟨hh, hhd⟩ := Option.isSome_iff_exists.mp h4
    unfold publish
    rw [if_neg (by rw [hed]; simp), if_neg (by rw [h2]; simp),
        if_neg (by rw [h3]; simp), if_neg (by rw [hhd]; simp), hbuild]

/-- Witness for publish_validation_order: one instance per validation outcome
in the stPub scenario. -/
theorem publish_validation_order_witness :
    publish 5 stPub "NOPE" "S" "RV" [] = (stPub, some .unknownEvent) ∧
    publish 5 stPub "E1" "GHOST" "RV" [] = (stPub, some .unknownSender) ∧
    publish 5 stPub "E1" "S" "GHOST" [] = (stPub, some .unknownReceiver) ∧
    publish 5 stPub "E1" "S" "S" [] = (stPub, some .receiverNotSubscribed) ∧
    publish 5 stPub "E1" "S" "RV" [("p", 7)] = publish_events 5 stPub [pubEvent] false := by
  refine ⟨?_, ?_, ?_, ?_, ?_⟩
  · exact (publish_validation_order 5 stPub "NOPE" "S" "RV" []).1 (by decide)
  · exact (publish_validation_order 5 stPub "E1" "GHOST" "RV" []).2.1
      (by decide) (by decide)
  · exact (publish_validation_order 5 stPub "E1" "S" "GHOST" []).2.2.1
      (by decide) (by decide) (by decide)
  · exact (publish_validation_order 5 stPub "E1" "S" "S" []).2.2.2.1
      (by decide) (by decide) (by decide) (by decide)
  · exact (publish_validation_order 5 stPub "E1" "S" "RV" [("p", 7)]).2.2.2.2.1
      pubEvent (by decide) (by decide) (by decide) (by decide) rfl

theorem execute_batch_all_non_iterable :
    ∀ (events : List XEvent) (fuel : Nat) (st : XCoreState),
      events.length < fuel →
      (∀ e ∈ events, handlerOf st e.id e.receiver_id = some (.result .nonIterable)) →
      execute_batch fuel st events =
        ({ st with executed := st.executed ++ events }, [], none) := by
  intro events
  induction events with
  | nil =>
    intro fuel st hf _
    cases fuel with
    | zero => omega
    | succ n => simp [execute_batch]
  | cons e rest ih =>
    intro fuel st hf hh
    cases fuel with
    | zero => simp at hf
    | succ n =>
      have hn : 0 < n := by simp only [List.length_cons] at hf; omega
      obtain ⟨m, rfl⟩ : ∃ m, n = m + 1 := ⟨n - 1, by omega⟩
      have hhe : handlerOf st e.id e.receiver_id = some (.result .nonIterable) :=
        hh e (List.mem_cons_self _ _)
      have hee : execute_event (m + 1) st e =
          ({ st with executed := st.executed ++ [e] }, .nonIterable, none) := by
        simp [execute_event, hhe]
      simp only [execute_batch]
      rw [hee]
      dsimp only [extract_undo_events]
      have hrec := ih (m + 1) { st with executed := st.executed ++ [e] }
        (by simp only [List.length_cons] at hf; omega)
        (by intro x hx; exact hh x (List.mem_cons_of_mem _ hx))
      rw [hrec]
      simp [List.append_assoc]

/-- C9: a handler return value that is not an iterable (None, an int, ...)
produces no compensation and no error: extraction yields the empty list, and a
batch whose handlers all return non-iterables executes every event, raises
nothing and pushes nothing onto either stack (the state changes only by the
execution trace). -/
theorem non_iterable_return_no_compensation :
    ∀ (st : XCoreState) (rid : String) (fuel : Nat) (events : List XEvent),
      extract_undo_events st .nonIterable rid = .ok [] ∧
      (st.on_main_thread = true →
       events.length < fuel →
       (∀ e ∈ events, handlerOf st e.id e.receiver_id = some (.result .nonIterable)) →
       publish_events_in_main_thread (fuel + 1) st events false =
         ({ st with executed := st.executed ++ events }, none)) := by
  intro st rid fuel events
  refine ⟨rfl, ?_⟩
  intro hmain hf hh
  simp only [publish_events_in_main_thread]
  rw [if_neg (by simp [hmain]), execute_batch_all_non_iterable events fuel st hf hh]
  rfl

/-- Witness for non_iterable_return_no_compensation in the stNone scenario. -/
theorem non_iterable_return_no_compensation_witness :
    extract_undo_events stNone .nonIterable "N" = .ok [] ∧
    publish_events_in_main_thread 3 stNone [okEventNone] false =
      ({ stNone with executed := stNone.executed ++ [okEventNone] }, none) := by
  have h := non_iterable_return_no_compensation stNone "N" 2 [okEventNone]
  exact ⟨h.1, h.2 (by decide) (by decide) (by decide)⟩

/-- C10: a start argument that is not an XCoreConfiguration is silently
ignored: the call behaves exactly as if no configuration had been passed, the
previously active configuration is kept, and the call then validates that
configuration (failing with InvalidConfiguration when its column width is
below the minimum) and otherwise broadcasts the started event. -/
theorem start_ignores_wrong_config_type :
    ∀ fuel st d,
      start fuel st .wrongType d = start fuel st .noArg d ∧
      (start fuel st .wrongType d).1.config = st.config ∧
      (st.config.id_maximum_logging_length < 10 →
        start fuel st .wrongType d = (st, some .invalidConfiguration)) ∧
      (¬ st.config.id_maximum_logging_length < 10 →
        start fuel st .wrongType .noArg =
          broadcast fuel { st with has_delegator := false } "X_CORE_START" "X_CORE" []) := by
  intro fuel st d
  refine ⟨rfl, ?_, ?_, ?_⟩
  · unfold start
    dsimp only
    split
    · rfl
    · cases d with
      | wrongType => rfl
      | delegator =>
        have hf := (frame_all fuel).2.2.2.2.2.2.2.2
          { st with has_delegator := true } "X_CORE_START" "X_CORE" []
        exact hf.2.2.2.2.1
      | noArg =>
        have hf := (frame_all fuel).2.2.2.2.2.2.2.2
          { st with has_delegator := false } "X_CORE_START" "X_CORE" []
        exact hf.2.2.2.2.1
  · intro h
    unfold start
    dsimp only
    rw [if_pos h]
  · intro h
    unfold start
    dsimp only
    rw [if_neg h]

/-- Witness for start_ignores_wrong_config_type with the default and with an
invalid active configuration. -/
theorem start_ignores_wrong_config_type_witness :
    start 30 initialState .wrongType .noArg = start 30 initialState .noArg .noArg ∧
    (start 30 initialState .wrongType .noArg).1.config = initialState.config ∧
    start 30 { initialState with config := badConfig } .wrongType .noArg
      = ({ initialState with config := badConfig }, some .invalidConfiguration) ∧
    start 30 initialState .wrongType .noArg =
      broadcast 30 { initialState with has_delegator := false }
        "X_CORE_START" "X_CORE" [] := by
  have h1 := start_ignores_wrong_config_type 30 initialState .noArg
  have h2 := start_ignores_wrong_config_type 30
    { initialState with config := badConfig } .noArg
  exact ⟨h1.1, h1.2.1, h2.2.2.1 (by decide), h1.2.2.2 (by decide)⟩

theorem execute_event_cases (fuel : Nat) (st : XCoreState) (event : XEvent)
    (hp : plainHandlers st = true) :
    (∃ e, execute_event fuel st event = (st, .nonIterable, some e)) ∨
    (∃ r, execute_event fuel st event =
      ({ st with executed := st.executed ++ [event] }, r, none)) := by
  cases fuel with
  | zero => exact .inl ⟨.outOfFuel, rfl⟩
  | succ n =>
    simp only [execute_event]
    cases hh : handlerOf st event.id event.receiver_id with
    | none => exact .inl ⟨.handlerNotSubscribed, rfl⟩
    | some hspec =>
      obtain ⟨r, rfl⟩ := plain_of_handlerOf hp hh
      exact .inr ⟨r, rfl⟩

theorem execute_batch_executed_prefix :
    ∀ (events : List XEvent) (fuel : Nat) (st : XCoreState),
      plainHandlers st = true →
      ∃ n ≤ events.length,
        (execute_batch fuel st events).1.executed = st.executed ++ events.take n := by
  intro events
  induction events with
  | nil =>
    intro fuel st _
    cases fuel with
    | zero => exact ⟨0, Nat.le_refl 0, by simp [execute_batch]⟩
    | succ n => exact ⟨0, Nat.le_refl 0, by simp [execute_batch]⟩
  | cons e rest ih =>
    intro fuel st hp
    cases fuel with
    | zero => exact ⟨0, by simp, by simp [execute_batch]⟩
    | succ n =>
      simp only [execute_batch]
      rcases execute_event_cases n st e hp with ⟨err, heq⟩ | ⟨r, heq⟩
      · rw [heq]
        exact ⟨0, by simp, by simp⟩
      · rw [heq]
        dsimp only
        cases hx : extract_undo_events { st with executed := st.executed ++ [e] } r
            e.receiver_id with
        | error e2 => exact ⟨1, by simp, by simp⟩
        | ok evs =>
          obtain ⟨m, hm, hexec⟩ := ih n { st with executed := st.executed ++ [e] } hp
          refine ⟨m + 1, by simp only [List.length_cons]; omega, ?_⟩
          rw [hexec]
          simp [List.append_assoc, List.take_succ_cons]

/-- C7: when the batch loop raises (handler missing at execution time,
malformed undo element, non-dict undo parameters, ...), the whole call raises
with that error: events executed before the failure remain executed (the trace
grows by a prefix of the batch only), events after the failing one are never
executed, and no bookkeeping happens — neither stack is touched. -/
theorem execution_errors_fatal_to_batch :
    ∀ fuel st events is_undo stb u err,
      plainHandlers st = true →
      st.on_main_thread = true →
      execute_batch fuel st events = (stb, u, some err) →
      publish_events_in_main_thread (fuel + 1) st events is_undo = (stb, some err) ∧
      stb.undo_stack = st.undo_stack ∧
      stb.redo_stack = st.redo_stack ∧
      ∃ n ≤ events.length, stb.executed = st.executed ++ events.take n := by
  intro fuel st events is_undo stb u err hp hmain hb
  refine ⟨?_, ?_, ?_, ?_⟩
  · simp only [publish_events_in_main_thread]
    rw [if_neg (by simp [hmain]), hb]
  · have h := (plain_preserve fuel).2.2.1 st events hp
    rw [hb] at h
    exact h.2
  · have h := (plain_preserve fuel).2.2.1 st events hp
    rw [hb] at h
    exact h.1
  · have h := execute_batch_executed_prefix events fuel st hp
    rw [hb] at h
    exact h

/-- Witness for execution_errors_fatal_to_batch: a three-event batch whose
second event produces a malformed undo element. -/
theorem execution_errors_fatal_to_batch_witness :
    publish_events_in_main_thread 11 stBatchPlain batchFailEvents false
      = (stBatchFail, some .malformedUndoEvent) ∧
    stBatchFail.undo_stack = stBatchPlain.undo_stack ∧
    stBatchFail.redo_stack = stBatchPlain.redo_stack ∧
    ∃ n ≤ batchFailEvents.length,
      stBatchFail.executed = stBatchPlain.executed ++ batchFailEvents.take n := by
  exact execution_errors_fatal_to_batch 10 stBatchPlain batchFailEvents false
    stBatchFail [uEvent] .malformedUndoEvent (by decide) (by decide) (by decide)

theorem lookup_cons_of_ne {α β : Type} [BEq α] [LawfulBEq α] (a k : α) (b : β)
    (es : List (α × β)) (h : k ≠ a) : ((a, b) :: es).lookup k = es.lookup k := by
  rw [List.lookup_cons]
  have hf : (k == a) = false := by simp [h]
  rw [hf]

theorem lookup_eq_none_of_not_mem_keys {α β : Type} [BEq α] [LawfulBEq α]
    {l : List (α × β)} {k : α} (h : k ∉ l.map Prod.fst) : l.lookup k = none := by
  rw [List.lookup_eq_none_iff]
  intro q hq
  simp only [bne_iff_ne]
  intro he
  exact h (by rw [he]; exact List.mem_map_of_mem Prod.fst hq)

theorem removeHandler_sublist (hs : List ((String × String) × HandlerSpec))
    (key : String × String) : (removeHandler hs key).Sublist hs := by
  induction hs with
  | nil => simp [removeHandler]
  | cons p rest ih =>
    obtain ⟨k, v⟩ := p
    simp only [removeHandler]
    split
    · exact List.sublist_cons_self _ _
    · exact List.Sublist.cons₂ _ ih

theorem removeHandler_lookup_other {hs : List ((String × String) × HandlerSpec)}
    {key k2 : String × String} (h : k2 ≠ key) :
    (removeHandler hs key).lookup k2 = hs.lookup k2 := by
  induction hs with
  | nil => rfl
  | cons p rest ih =>
    obtain ⟨k, v⟩ := p
    simp only [removeHandler]
    split
    · next hk =>
      subst hk
      rw [lookup_cons_of_ne _ _ _ _ h]
    · by_cases hk2 : k2 = k
      · subst hk2
        rw [List.lookup_cons_self, List.lookup_cons_self]
      · rw [lookup_cons_of_ne _ _ _ _ hk2, lookup_cons_of_ne _ _ _ _ hk2]
        exact ih

theorem removeHandler_lookup_self {hs : List ((String × String) × HandlerSpec)}
    {key : String × String} (hnd : (hs.map Prod.fst).Nodup) :
    (removeHandler hs key).lookup key = none := by
  induction hs with
  | nil => rfl
  | cons p rest ih =>
    obtain ⟨k, v⟩ := p
    simp only [List.map_cons, List.nodup_cons] at hnd
    obtain ⟨hknotin, hndrest⟩ := hnd
    simp only [removeHandler]
    split
    · next hk =>
      subst hk
      exact lookup_eq_none_of_not_mem_keys hknotin
    · next hk =>
      rw [lookup_cons_of_ne _ _ _ _ (Ne.symm hk)]
      exact ih hndrest

theorem lookup_map_value {α β γ : Type} [BEq α] (f : β → γ) :
    ∀ (l : List (α × β)) (k : α),
      (l.map (fun p => (p.1, f p.2))).lookup k = (l.lookup k).map f := by
  intro l k
  induction l with
  | nil => rfl
  | cons p rest ih =>
    obtain ⟨a, b⟩ := p
    simp only [List.map_cons]
    cases hba : k == a with
    | true => rw [List.lookup_cons, List.lookup_cons, hba]; rfl
    | false => rw [List.lookup_cons, List.lookup_cons, hba]; exact ih

/-- Characterization of the unregistration sweep: with distinct subscription
keys, distinct handler keys, and a handler present for every subscription of
the node, the sweep raises nothing, erases the node from every subscriber set,
removes exactly the handler entries keyed (event, node) for events that had
the node subscribed, and leaves every other handler entry alone. -/
theorem removeSubsAndHandlers_spec :
    ∀ (nid : String) (subs : List (String × List String))
      (hs : List ((String × String) × HandlerSpec)),
      (subs.map Prod.fst).Nodup →
      (hs.map Prod.fst).Nodup →
      (∀ p ∈ subs, nid ∈ p.2 → (hs.lookup (p.1, nid)).isSome = true) →
      (removeSubsAndHandlers nid subs hs).1 =
        subs.map (fun p => (p.1, p.2.erase nid)) ∧
      (removeSubsAndHandlers nid subs hs).2.2 = none ∧
      (∀ k : String × String, k.2 ≠ nid →
        (removeSubsAndHandlers nid subs hs).2.1.lookup k = hs.lookup k) ∧
      (∀ e ns2, subs.lookup e = some ns2 → nid ∈ ns2 →
        (removeSubsAndHandlers nid subs hs).2.1.lookup (e, nid) = none) ∧
      (∀ e ns2, subs.lookup e = some ns2 → nid ∉ ns2 →
        (removeSubsAndHandlers nid subs hs).2.1.lookup (e, nid) = hs.lookup (e, nid)) ∧
      (∀ e, subs.lookup e = none →
        (removeSubsAndHandlers nid subs hs).2.1.lookup (e, nid) = hs.lookup (e, nid)) := by
  intro nid subs
  induction subs with
  | nil =>
    intro hs _ _ _
    exact ⟨rfl, rfl, fun _ _ => rfl, fun e ns2 h => by simp [List.lookup] at h,
           fun e ns2 h => by simp [List.lookup] at h, fun _ _ => rfl⟩
  | cons p rest ih =>
    obtain ⟨e0, ns⟩ := p
    intro hs hnds hndh hsync
    simp only [List.map_cons, List.nodup_cons] at hnds
    obtain ⟨he0, hndrest⟩ := hnds
    simp only [removeSubsAndHandlers]
    by_cases hmem : ns.contains nid = true
    · have hnidns : nid ∈ ns := by simpa using hmem
      have hlk : (hs.lookup (e0, nid)).isSome = true :=
        hsync (e0, ns) (List.mem_cons_self _ _) hnidns
      rw [if_pos hmem, if_pos hlk]
      have hsync2 : ∀ p ∈ rest, nid ∈ p.2 →
          ((removeHandler hs (e0, nid)).lookup (p.1, nid)).isSome = true := by
        intro q hq hmq
        have hne : q.1 ≠ e0 := by
          intro hcontra
          exact he0 (by rw [← hcontra]; exact List.mem_map_of_mem Prod.fst hq)
        rw [removeHandler_lookup_other (by simp [hne])]
        exact hsync q (List.mem_cons_of_mem _ hq) hmq
      have hndh2 : ((removeHandler hs (e0, nid)).map Prod.fst).Nodup :=
        hndh.sublist ((removeHandler_sublist hs (e0, nid)).map Prod.fst)
      rcases hrec : removeSubsAndHandlers nid rest (removeHandler hs (e0, nid))
        with ⟨subs2, hs2, err⟩
      obtain ⟨A1, A2, A3, A4, A5, A6⟩ := ih (removeHandler hs (e0, nid)) hndrest hndh2 hsync2
      rw [hrec] at A1 A2 A3 A4 A5 A6
      dsimp only at A1 A2 A3 A4 A5 A6 ⊢
      subst A2
      refine ⟨?_, rfl, ?_, ?_, ?_, ?_⟩
      · simp only [List.map_cons]
        rw [A1]
      · intro k hk
        rw [A3 k hk]
        exact removeHandler_lookup_other (by
          intro hcontra
          exact hk (by rw [hcontra]))
      · intro e ns2 hlke hin
        by_cases he : e = e0
        · subst he
          rw [List.lookup_cons_self] at hlke
          cases hlke
          have hre : rest.lookup e = none := lookup_eq_none_of_not_mem_keys he0
          rw [A6 e hre]
          exact removeHandler_lookup_self hndh
        · rw [lookup_cons_of_ne _ _ _ _ he] at hlke
          exact A4 e ns2 hlke hin
      · intro e ns2 hlke hnin
        by_cases he : e = e0
        · subst he
          rw [List.lookup_cons_self] at hlke
          cases hlke
          exact absurd hnidns hnin
        · rw [lookup_cons_of_ne _ _ _ _ he] at hlke
          rw [A5 e ns2 hlke hnin]
          exact removeHandler_lookup_other (by simp [he])
      · intro e hlke
        by_cases he : e = e0
        · subst he
          rw [List.lookup_cons_self] at hlke
          cases hlke
        · rw [lookup_cons_of_ne _ _ _ _ he] at hlke
          rw [A6 e hlke]
          exact removeHandler_lookup_other (by simp [he])
    · have hnidns : nid ∉ ns := by
        intro hin
        exact hmem (by simpa using hin)
      rw [if_neg hmem]
      rcases hrec : removeSubsAndHandlers nid rest hs with ⟨subs2, hs2, err⟩
      obtain ⟨A1, A2, A3, A4, A5, A6⟩ := ih hs hndrest hndh
        (fun q hq hmq => hsync q (List.mem_cons_of_mem _ hq) hmq)
      rw [hrec] at A1 A2 A3 A4 A5 A6
      dsimp only at A1 A2 A3 A4 A5 A6 ⊢
      subst A2
      refine ⟨?_, rfl, A3, ?_, ?_, ?_⟩
      · simp only [List.map_cons]
        rw [List.erase_of_not_mem hnidns, A1]
      · intro e ns2 hlke hin
        by_cases he : e = e0
        · subst he
          rw [List.lookup_cons_self] at hlke
          cases hlke
          exact absurd hin hnidns
        · rw [lookup_cons_of_ne _ _ _ _ he] at hlke
          exact A4 e ns2 hlke hin
      · intro e ns2 hlke hnin
        by_cases he : e = e0
        · subst he
          rw [List.lookup_cons_self] at hlke
          cases hlke
          have hre : rest.lookup e = none := lookup_eq_none_of_not_mem_keys he0
          exact A6 e hre
        · rw [lookup_cons_of_ne _ _ _ _ he] at hlke
          exact A5 e ns2 hlke hnin
      · intro e hlke
        by_cases he : e = e0
        · subst he
          rw [List.lookup_cons_self] at hlke
          cases hlke
        · rw [lookup_cons_of_ne _ _ _ _ he] at hlke
          exact A6 e hlke

/-- C8: unregister_node on an unknown identifier fails with UnknownNode and
changes nothing; on a registered identifier (in a state with dict/set-shaped
tables whose handler and subscription entries agree) it removes the identifier
from every subscription set, deletes every handler entry keyed by it, and
removes the identifier from the node set, while every other identifier's
subscription membership and handler entries are unchanged. -/
theorem unregister_node_spec :
    ∀ (st : XCoreState) (nid : String),
      (st.node_ids.contains nid = false →
        unregister_node st nid = (st, some .unknownNode)) ∧
      (st.node_ids.contains nid = true →
       (st.event_subscriptions.map Prod.fst).Nodup →
       (st.event_handlers.map Prod.fst).Nodup →
       (∀ p ∈ st.event_subscriptions, nid ∈ p.2 →
          (st.event_handlers.lookup (p.1, nid)).isSome = true) →
       (∀ q ∈ st.event_handlers, q.1.2 = nid → nid ∈ subscribersOf st q.1.1) →
       ∃ st2, unregister_node st nid = (st2, none) ∧
         st2.node_ids = st.node_ids.erase nid ∧
         (∀ e, subscribersOf st2 e = (subscribersOf st e).erase nid) ∧
         (∀ e m, m ≠ nid → (m ∈ subscribersOf st2 e ↔ m ∈ subscribersOf st e)) ∧
         (∀ e, st2.event_handlers.lookup (e, nid) = none) ∧
         (∀ k : String × String, k.2 ≠ nid →
            st2.event_handlers.lookup k = st.event_handlers.lookup k) ∧
         st2.undo_stack = st.undo_stack ∧ st2.redo_stack = st.redo_stack ∧
         st2.event_descriptions = st.event_descriptions ∧ st2.config = st.config) := by
  intro st nid
  constructor
  · intro h
    unfold unregister_node
    rw [if_pos (by rw [h]; rfl)]
  · intro h hnds hndh hsync hsync2
    unfold unregister_node
    rw [if_neg (by rw [h]; simp)]
    rcases hrec : removeSubsAndHandlers nid st.event_subscriptions st.event_handlers
      with ⟨subs2, hs2, err⟩
    obtain ⟨A1, A2, A3, A4, A5, A6⟩ :=
      removeSubsAndHandlers_spec nid st.event_subscriptions st.event_handlers
        hnds hndh hsync
    rw [hrec] at A1 A2 A3 A4 A5 A6
    dsimp only at A1 A2 A3 A4 A5 A6
    subst A2
    have hsubsAll : ∀ e, subs2.lookup e =
        (st.event_subscriptions.lookup e).map (fun x => x.erase nid) := by
      intro e
      rw [A1]
      exact lookup_map_value (fun x => x.erase nid) st.event_subscriptions e
    have hhsNone : ∀ e, hs2.lookup (e, nid) = none := by
      intro e
      cases hse : st.event_subscriptions.lookup e with
      | some ns =>
        by_cases hn : nid ∈ ns
        · exact A4 e ns hse hn
        · rw [A5 e ns hse hn]
          cases hlo : st.event_handlers.lookup (e, nid) with
          | none => rfl
          | some v =>
            exfalso
            have hq := mem_of_lookup_eq_some hlo
            have hmm := hsync2 ((e, nid), v) hq rfl
            simp only [subscribersOf, hse, Option.getD_some] at hmm
            exact hn hmm
      | none =>
        rw [A6 e hse]
        cases hlo : st.event_handlers.lookup (e, nid) with
        | none => rfl
        | some v =>
          exfalso
          have hq := mem_of_lookup_eq_some hlo
          have hmm := hsync2 ((e, nid), v) hq rfl
          simp only [subscribersOf, hse] at hmm
          exact List.not_mem_nil nid hmm
    refine ⟨_, rfl, rfl, ?_, ?_, hhsNone, A3, rfl, rfl, rfl, rfl⟩
    · intro e
      show (subs2.lookup e).getD [] = ((st.event_subscriptions.lookup e).getD []).erase nid
      rw [hsubsAll e]
      cases st.event_subscriptions.lookup e with
      | none => simp
      | some ns => simp
    · intro e m hm
      show m ∈ (subs2.lookup e).getD [] ↔ m ∈ (st.event_subscriptions.lookup e).getD []
      rw [hsubsAll e]
      cases st.event_subscriptions.lookup e with
      | none => simp
      | some ns =>
        simp only [Option.map_some, Option.getD_some]
        exact List.mem_erase_of_ne hm

/-- Witness for unregister_node_spec: removing node N1 from the stUnreg
scenario. -/
theorem unregister_node_spec_witness :
    unregister_node stUnreg "GHOST" = (stUnreg, some .unknownNode) ∧
    ∃ st2, unregister_node stUnreg "N1" = (st2, none) ∧
      st2.node_ids = stUnreg.node_ids.erase "N1" ∧
      (∀ e, subscribersOf st2 e = (subscribersOf stUnreg e).erase "N1") ∧
      (∀ e m, m ≠ "N1" → (m ∈ subscribersOf st2 e ↔ m ∈ subscribersOf stUnreg e)) ∧
      (∀ e, st2.event_handlers.lookup (e, "N1") = none) ∧
      (∀ k : String × String, k.2 ≠ "N1" →
         st2.event_handlers.lookup k = stUnreg.event_handlers.lookup k) ∧
      st2.undo_stack = stUnreg.undo_stack ∧ st2.redo_stack = stUnreg.redo_stack ∧
      st2.event_descriptions = stUnreg.event_descriptions ∧
      st2.config = stUnreg.config := by
  constructor
  · exact (unregister_node_spec stUnreg "GHOST").1 (by decide)
  · exact (unregister_node_spec stUnreg "N1").2 (by decide) (by decide) (by decide)
      (by decide) (by decide)

end XNodes
